import Mathlib

/-!
Verification of the rustlytodo task-tracking core against its design
specification.  Rust strings are modelled as lists of characters with the
UTF-8 byte length made explicit where the source calls `str::len`; machine
instants (`time::OffsetDateTime`) are modelled as integers compared by the
usual order, and the ambient clock reading `OffsetDateTime::now_utc()` is
passed as an explicit `now` argument.  Fallible constructors return
`Except DomainError`; Rust methods taking `&mut self` and returning
`Result` are modelled as state-passing functions returning the post-state
together with the outcome.
-/

namespace RustlyTodo

/-- Rust string slices and owned strings, modelled as their character lists. -/
abbrev Str := List Char

/-- Character class used by Rust `str::trim` (Unicode whitespace; agrees with
`Char.isWhitespace` on every character appearing in this development). -/
def isWs (c : Char) : Bool := c.isWhitespace

/-- Rust `str::trim`: drop leading and trailing whitespace. -/
def rustTrim (s : Str) : Str :=
  ((s.dropWhile isWs).reverse.dropWhile isWs).reverse

/-- Rust `str::len`: the length of the string in UTF-8 bytes, not characters. -/
def utf8Len (s : Str) : Nat := (s.map Char.utf8Size).sum

/-- Rust `char::to_ascii_lowercase`. -/
def asciiLowerChar (c : Char) : Char :=
  if 'A' ≤ c ∧ c ≤ 'Z' then Char.ofNat (c.toNat + 32) else c

/-- Rust `char::to_ascii_uppercase`. -/
def asciiUpperChar (c : Char) : Char :=
  if 'a' ≤ c ∧ c ≤ 'z' then Char.ofNat (c.toNat - 32) else c

/-- Rust `str::to_ascii_lowercase`. -/
def asciiLower (s : Str) : Str := s.map asciiLowerChar

/-- Rust `str::to_ascii_uppercase`. -/
def asciiUpper (s : Str) : Str := s.map asciiUpperChar

/-- Rust `str::eq_ignore_ascii_case`. -/
def eqIgnoreAsciiCase (a b : Str) : Bool := asciiLower a == asciiLower b

/-- Rust `str::contains` for a string needle: substring search. -/
def strContains (hay needle : Str) : Bool :=
  (List.range (hay.length + 1)).any (fun i => needle.isPrefixOf (hay.drop i))

/-- Error kinds of src/src/domain/errors.rs (`DomainError`). -/
inductive DomainError
  | EmptyTitle
  | NotesTooLong (max : Nat)
  | EmptyProjectName
  | EmptyTag
  | InvalidTag
  | InvalidPriority
  | InvalidDueAt
  | AlreadyDone
  | AlreadyOpen
  deriving DecidableEq, Repr

/-- The first 8 characters of the canonical identifier text
(src/src/domain/todo.rs, `TodoId::short`). -/
def TodoId.short (id : Str) : Str := id.take 8

/-- Validated title construction (src/src/domain/todo.rs, `Title::parse`):
trim, reject empty. -/
def Title.parse (input : Str) : Except DomainError Str :=
  let trimmed := rustTrim input
  if trimmed.isEmpty then .error .EmptyTitle else .ok trimmed

/-- Maximum notes length in the source (`Notes::MAX_LEN`), compared against
the UTF-8 byte length `str::len`. -/
def NOTES_MAX_LEN : Nat := 10000

/-- Validated notes construction (src/src/domain/todo.rs, `Notes::parse`):
trim, then reject when the UTF-8 byte length exceeds `NOTES_MAX_LEN`. -/
def Notes.parse (input : Str) : Except DomainError Str :=
  let s := rustTrim input
  if utf8Len s > NOTES_MAX_LEN then .error (.NotesTooLong NOTES_MAX_LEN) else .ok s

/-- Validated project name construction (src/src/domain/todo.rs,
`ProjectName::parse`). -/
def ProjectName.parse (input : Str) : Except DomainError Str :=
  let trimmed := rustTrim input
  if trimmed.isEmpty then .error .EmptyProjectName else .ok trimmed

/-- The default project (src/src/domain/todo.rs, `ProjectName::inbox`). -/
def ProjectName.inbox : Str := "Inbox".data

/-- Characters allowed in a normalized tag (ASCII lowercase, ASCII digit,
hyphen, underscore). -/
def isTagChar (c : Char) : Bool :=
  c.isLower || c.isDigit || c == '-' || c == '_'

/-- Validated tag construction (src/src/domain/todo.rs, `Tag::parse`):
trim, reject empty, fold to ASCII lowercase, restrict the alphabet. -/
def Tag.parse (input : Str) : Except DomainError Str :=
  let raw := rustTrim input
  if raw.isEmpty then .error .EmptyTag
  else
    let normalized := asciiLower raw
    if normalized.all isTagChar then .ok normalized else .error .InvalidTag

/-- Priority levels (src/src/domain/todo.rs, `Priority`); declaration order
gives the derived Rust ordering P1 < P2 < P3 < P4. -/
inductive Priority
  | P1
  | P2
  | P3
  | P4
  deriving DecidableEq, Repr

/-- Rank realising the derived `Ord` of the Rust enum (declaration order). -/
def Priority.rank : Priority → Int
  | .P1 => 1
  | .P2 => 2
  | .P3 => 3
  | .P4 => 4

/-- Case-insensitive priority parsing (src/src/domain/todo.rs,
`Priority::parse`). -/
def Priority.parse (input : Str) : Except DomainError Priority :=
  let s := asciiUpper (rustTrim input)
  if s == "P1".data then .ok .P1
  else if s == "P2".data then .ok .P2
  else if s == "P3".data then .ok .P3
  else if s == "P4".data then .ok .P4
  else .error .InvalidPriority

/-- Display label of a priority (src/src/domain/todo.rs, `Priority::label`). -/
def Priority.label : Priority → Str
  | .P1 => "P1".data
  | .P2 => "P2".data
  | .P3 => "P3".data
  | .P4 => "P4".data

/-- Task status (src/src/domain/todo.rs, `Status`): Open, or Done carrying
the completion instant. -/
inductive Status
  | Open
  | Done (completed_at : Int)
  deriving DecidableEq, Repr

/-- Rust `Status::is_done`. -/
def Status.is_done : Status → Bool
  | .Open => false
  | .Done _ => true

/-- The task aggregate (src/src/domain/todo.rs, `Todo`).  The identifier is
its canonical text form; the tag set is carried as the ordered list the
`BTreeSet` iterates in. -/
structure Todo where
  id : Str
  title : Str
  notes : Option Str
  project : Str
  tags : List Str
  status : Status
  priority : Priority
  due : Option Int
  created_at : Int
  updated_at : Int
  deriving DecidableEq, Repr

/-- Constructor defaults (src/src/domain/todo.rs, `Todo::new`): fresh id and
current instant are ambient effects in the source, passed explicitly here. -/
def Todo.new (id : Str) (title : Str) (now : Int) : Todo :=
  { id := id
    title := title
    notes := none
    project := ProjectName.inbox
    tags := []
    status := .Open
    priority := .P3
    due := none
    created_at := now
    updated_at := now }

/-- State-passing embedding of `Todo::mark_done` (src/src/domain/todo.rs):
the returned task is the post-state of the `&mut self` receiver. -/
def Todo.mark_done (t : Todo) (now : Int) : Todo × Except DomainError Unit :=
  match t.status with
  | .Open => ({ t with status := .Done now, updated_at := now }, .ok ())
  | .Done _ => (t, .error .AlreadyDone)

/-- State-passing embedding of `Todo::mark_open` (src/src/domain/todo.rs). -/
def Todo.mark_open (t : Todo) (now : Int) : Todo × Except DomainError Unit :=
  match t.status with
  | .Done _ => ({ t with status := .Open, updated_at := now }, .ok ())
  | .Open => (t, .error .AlreadyOpen)

/-- Rust `Todo::is_overdue` (src/src/domain/todo.rs): open, has a due
instant, and the due instant is strictly before now. -/
def Todo.is_overdue (t : Todo) (now : Int) : Bool :=
  if t.status.is_done then false
  else
    match t.due with
    | some due => decide (due < now)
    | none => false

/-- Modelled from the spec: `TodoPatch` is consumed by src/src/app/service.rs
and built field by field in src/src/ui/cli.rs, but its declaration is not
under src/.  Spec section 3: one tri-state instruction per mutable field
(Unchanged, Clear, Set), which the CLI call sites encode as nested options
(`none` = Unchanged, `some none` = Clear, `some (some v)` = Set v); the
non-optional fields title, project, priority and tags have no Clear state. -/
structure TodoPatch where
  title : Option Str := none
  notes : Option (Option Str) := none
  project : Option Str := none
  priority : Option Priority := none
  due : Option (Option Int) := none
  tags : Option (List Str) := none

/-- Modelled from the spec: `Todo::apply_patch` is called by
src/src/app/service.rs but is not defined under src/.  Spec section 4.2:
replace exactly the fields the patch carries in Set or Clear state, leave
Unchanged fields untouched, and recompute updated-at once per application. -/
def Todo.apply_patch (t : Todo) (p : TodoPatch) (now : Int) : Todo :=
  { t with
    title := p.title.getD t.title
    notes := p.notes.getD t.notes
    project := p.project.getD t.project
    priority := p.priority.getD t.priority
    due := p.due.getD t.due
    tags := p.tags.getD t.tags
    updated_at := now }

/-- The timestamp invariant of spec section 3: updated-at is never earlier
than created-at. -/
def tsInv (t : Todo) : Prop := t.created_at ≤ t.updated_at

/-- C4: mark_done succeeds exactly on an Open task, setting status to
Done at the current instant and updated-at to that same instant, and fails
with AlreadyDone on a Done task leaving the task entirely unchanged;
mark_open succeeds exactly on a Done task, resetting status to Open and
refreshing updated-at, and fails with AlreadyOpen on an Open task leaving
the task entirely unchanged. -/
theorem mark_done_mark_open_spec (t : Todo) (now : Int) :
    (t.status = Status.Open →
      t.mark_done now =
        ({ t with status := Status.Done now, updated_at := now }, Except.ok ()))
  ∧ (∀ c, t.status = Status.Done c →
      t.mark_done now = (t, Except.error DomainError.AlreadyDone))
  ∧ (∀ c, t.status = Status.Done c →
      t.mark_open now =
        ({ t with status := Status.Open, updated_at := now }, Except.ok ()))
  ∧ (t.status = Status.Open →
      t.mark_open now = (t, Except.error DomainError.AlreadyOpen)) := by
  refine ⟨fun h => ?_, fun c h => ?_, fun c h => ?_, fun h => ?_⟩ <;>
    simp [Todo.mark_done, Todo.mark_open, h]

/-- Concrete witness for C4: an open task transitions to Done and a done
task is rejected unchanged. -/
theorem mark_done_mark_open_spec_witness :
    (Todo.new "a".data "t".data 0).mark_done 5 =
      ({ Todo.new "a".data "t".data 0 with
          status := Status.Done 5, updated_at := 5 }, Except.ok ())
  ∧ ({ Todo.new "a".data "t".data 0 with status := Status.Done 3 }).mark_done 5 =
      ({ Todo.new "a".data "t".data 0 with status := Status.Done 3 },
        Except.error DomainError.AlreadyDone) :=
  ⟨(mark_done_mark_open_spec (Todo.new "a".data "t".data 0) 5).1 rfl,
   (mark_done_mark_open_spec
      { Todo.new "a".data "t".data 0 with status := Status.Done 3 } 5).2.1 3 rfl⟩

/-- C8 counterexample: a notes input of 5001 two-byte characters is at most
10000 characters long after trimming, yet Notes::parse rejects it, because
the source compares the UTF-8 byte length (str::len), not the character
count. -/
theorem notes_parse_char_cap_counterexample :
    (rustTrim (List.replicate 5001 'é')).length ≤ 10000
  ∧ Notes.parse (List.replicate 5001 'é') =
      Except.error (DomainError.NotesTooLong 10000) := by
  have hws : isWs 'é' = false := by decide
  have hdrop : ∀ n, List.dropWhile isWs (List.replicate n 'é') = List.replicate n 'é' := by
    intro n
    cases n with
    | zero => rfl
    | succ m => simp [List.replicate_succ, List.dropWhile_cons, hws]
  have htrim : rustTrim (List.replicate 5001 'é') = List.replicate 5001 'é' := by
    unfold rustTrim
    rw [hdrop, List.reverse_replicate, hdrop, List.reverse_replicate]
  have hsize : Char.utf8Size 'é' = 2 := by decide
  have hlen : utf8Len (List.replicate 5001 'é') = 10002 := by
    unfold utf8Len
    rw [List.map_replicate, List.sum_replicate, smul_eq_mul, hsize]
  constructor
  · rw [htrim, List.length_replicate]
    norm_num
  · simp only [Notes.parse, htrim, hlen, NOTES_MAX_LEN]
    rw [if_pos (by norm_num)]

/-- C8 amended: Notes::parse trims surrounding whitespace and succeeds if
and only if the trimmed text occupies at most 10000 UTF-8 bytes, storing
the trimmed text unmodified; on longer input it fails with NotesTooLong
and never truncates or clamps. -/
theorem notes_parse_byte_cap (input : Str) :
    (utf8Len (rustTrim input) ≤ 10000 →
      Notes.parse input = Except.ok (rustTrim input))
  ∧ (10000 < utf8Len (rustTrim input) →
      Notes.parse input = Except.error (DomainError.NotesTooLong 10000)) := by
  constructor <;> intro h <;> simp [Notes.parse, NOTES_MAX_LEN] <;> omega

/-- Concrete witness for the amended C8: a short note is stored trimmed. -/
theorem notes_parse_byte_cap_witness :
    Notes.parse "  hi  ".data = Except.ok "hi".data :=
  (notes_parse_byte_cap "  hi  ".data).1 (by decide)

/-- C9: a newly constructed task carries the same current instant as both
created-at and updated-at, and every mutation (mark_done, mark_open, patch
application) refreshes updated-at with the current instant, so a task whose
clock readings never precede its creation instant always satisfies
updated-at greater than or equal to created-at. -/
theorem timestamps_invariant_spec (id title : Str) (t : Todo) (p : TodoPatch)
    (now : Int) (hinv : tsInv t) (hnow : t.created_at ≤ now) :
    (Todo.new id title now).created_at = now
  ∧ (Todo.new id title now).updated_at = now
  ∧ tsInv (Todo.new id title now)
  ∧ tsInv (t.mark_done now).1
  ∧ tsInv (t.mark_open now).1
  ∧ tsInv (t.apply_patch p now) := by
  refine ⟨rfl, rfl, le_refl _, ?_, ?_, ?_⟩
  · cases h : t.status <;> simp [Todo.mark_done, h, tsInv] <;>
      first
      | exact hnow
      | exact hinv
  · cases h : t.status <;> simp [Todo.mark_open, h, tsInv] <;>
      first
      | exact hnow
      | exact hinv
  · simpa [Todo.apply_patch, tsInv] using hnow

/-- Concrete witness for C9 at an open task patched at a later instant. -/
theorem timestamps_invariant_spec_witness :
    tsInv ((Todo.new "a".data "t".data 0).apply_patch { title := some "u".data } 7) :=
  (timestamps_invariant_spec "x".data "y".data (Todo.new "a".data "t".data 0)
    { title := some "u".data } 7 (by norm_num [tsInv, Todo.new])
    (by norm_num [Todo.new])).2.2.2.2.2

/-- Status filter of src/src/app/query.rs (`StatusFilter`). -/
inductive StatusFilter
  | Open
  | Done
  deriving DecidableEq, Repr

/-- Sort key of src/src/app/query.rs (`SortKey`). -/
inductive SortKey
  | Due
  | Priority
  | Created
  deriving DecidableEq, Repr

/-- Query configuration of src/src/app/query.rs (`ListQuery`). -/
structure ListQuery where
  status : Option StatusFilter
  project : Option Str
  tag : Option Str
  search : Option Str
  overdue : Bool
  priority : Option Priority
  sort : SortKey
  desc : Bool

/-- The `Default` impl of `ListQuery` in src/src/app/query.rs. -/
def ListQuery.default : ListQuery :=
  { status := none
    project := none
    tag := none
    search := none
    overdue := false
    priority := none
    sort := .Due
    desc := false }

/-- The retain closure of `apply_list_query` (src/src/app/query.rs): a task
is kept exactly when every configured filter passes. -/
def keepTodo (q : ListQuery) (now : Int) (t : Todo) : Bool :=
  (match q.status with
   | none => true
   | some .Open => !t.status.is_done
   | some .Done => t.status.is_done)
  && (match q.project with
      | none => true
      | some p => eqIgnoreAsciiCase t.project (rustTrim p))
  && (match q.tag with
      | none => true
      | some tag =>
        let needle := asciiLower (rustTrim tag)
        t.tags.any (fun x => x == needle))
  && (match q.priority with
      | none => true
      | some pr => t.priority == pr)
  && (!q.overdue || t.is_overdue now)
  && (match q.search with
      | none => true
      | some s =>
        let needle := asciiLower (rustTrim s)
        if needle.isEmpty then true
        else
          strContains (asciiLower t.title) needle
          || strContains (asciiLower (t.notes.getD [])) needle)

/-- Rust integer and `OffsetDateTime` comparison (`Ord::cmp`). -/
def intCmp (x y : Int) : Ordering :=
  if x < y then .lt else if y < x then .gt else .eq

/-- The derived `Ord` on `Option<DueAt>` used by the Due sort in
src/src/app/query.rs: in Rust `None` compares less than `Some`, and two
present due instants compare by instant. -/
def optIntCmp : Option Int → Option Int → Ordering
  | none, none => .eq
  | none, some _ => .lt
  | some _, none => .gt
  | some x, some y => intCmp x y

/-- The comparator passed to `sort_by` in `apply_list_query`
(src/src/app/query.rs), per sort key. -/
def todoCmp (k : SortKey) (a b : Todo) : Ordering :=
  match k with
  | .Due => optIntCmp a.due b.due
  | .Priority => intCmp a.priority.rank b.priority.rank
  | .Created => intCmp a.created_at b.created_at

/-- The weak order induced by the comparator: a sorts no later than b when
the comparator does not answer Greater. -/
def cmpLe (k : SortKey) (a b : Todo) : Bool :=
  match todoCmp k a b with
  | .gt => false
  | _ => true

/-- Stable insertion of an element in front of the first entry it sorts no
later than. -/
def insertLe {α : Type} (le : α → α → Bool) (a : α) : List α → List α
  | [] => [a]
  | b :: l => if le a b then a :: b :: l else b :: insertLe le a l

/-- Stable sort modelling Rust `Vec::sort_by`: the standard library sort is
stable, and for a total preorder every stable sort produces the same
sequence, so stable insertion sort is an exact model of its output. -/
def stableSortBy {α : Type} (le : α → α → Bool) : List α → List α
  | [] => []
  | a :: l => insertLe le a (stableSortBy le l)

/-- The query engine `apply_list_query` (src/src/app/query.rs): retain the
tasks passing every filter, stably sort by the configured key, and reverse
the whole sequence when the descending flag is set. -/
def apply_list_query (todos : List Todo) (q : ListQuery) (now : Int) : List Todo :=
  let filtered := todos.filter (keepTodo q now)
  let sorted := stableSortBy (cmpLe q.sort) filtered
  if q.desc then sorted.reverse else sorted

/-- A dated task used to exhibit the Due sort placement. -/
def dueBugDated : Todo :=
  { Todo.new "aaaa1111".data "dated".data 0 with due := some 5 }

/-- An undated task used to exhibit the Due sort placement. -/
def dueBugUndated : Todo :=
  Todo.new "bbbb2222".data "undated".data 0

/-- C1: evaluating `apply_list_query` with sort key Due and no reversal on
one dated and one undated task places the task with no due instant first,
although the comment in the source and the specification both require the
tasks with no due instant to sort after all dated ones: the comparator
`a.due.cmp(&b.due)` uses the derived option ordering, in which None is
less than Some. -/
theorem apply_list_query_due_none_first_at_failing_input :
    apply_list_query [dueBugDated, dueBugUndated] ListQuery.default 100
      = [dueBugUndated, dueBugDated]
  ∧ dueBugUndated.due = none
  ∧ dueBugDated.due = some 5 := by
  refine ⟨?_, rfl, rfl⟩
  decide

/-- A second dated task for the sortedness divergence of C7. -/
def dueOrderDated : Todo :=
  { Todo.new "cccc3333".data "early".data 1 with due := some 2 }

/-- A second undated task for the sortedness divergence of C7. -/
def dueOrderUndated : Todo :=
  Todo.new "dddd4444".data "open-ended".data 1

/-- C7: under the Due orderings stated by the specification (a task with no
due instant sorts after every dated task), the output of
`apply_list_query` with sort key Due is not non-decreasing: on a dated and
an undated task the code emits the undated task first, so the first
adjacent pair already decreases under the specified ordering.  Stability
and the uniform final reversal are not the diverging parts; the Due key
ordering is. -/
theorem apply_list_query_not_nondecreasing_under_spec_due_order :
    apply_list_query [dueOrderDated, dueOrderUndated]
        { ListQuery.default with sort := SortKey.Due, desc := false } 100
      = [dueOrderUndated, dueOrderDated]
  ∧ dueOrderUndated.due = none
  ∧ dueOrderDated.due = some 2 := by
  refine ⟨?_, rfl, rfl⟩
  decide

/-- Hexadecimal digit test used for the canonical identifier form. -/
def isHexDigit (c : Char) : Bool :=
  c.isDigit || ('a' ≤ c && c ≤ 'f') || ('A' ≤ c && c ≤ 'F')

/-- Modelled from the spec: `TodoId::parse_uuid` is called from
src/src/ui/cli.rs and src/src/infra/csv_io.rs but not defined under src/.
Spec section 4.6 step (1) accepts an input that parses as a full canonical
identifier; the canonical form (spec section 3 with the source UUID text
example) is 36 characters in five hexadecimal groups of 8-4-4-4-12
separated by hyphens.  Parsing is case-insensitive on the hex digits and
the stored identifier value renders in lowercase, so the accepted
identifier is returned lowercased. -/
def parse_uuid (s : Str) : Option Str :=
  if s.length == 36
      && (List.range 36).all (fun i =>
          if i == 8 || i == 13 || i == 18 || i == 23 then s.getD i ' ' == '-'
          else isHexDigit (s.getD i ' '))
  then some (asciiLower s)
  else none

/-- The three failure shapes of `resolve_id_input` (src/src/ui/cli.rs),
which the source renders as distinct message strings. -/
inductive ResolveError
  | TooShort
  | NotFound (input : Str)
  | Ambiguous (input : Str) (candidates : List (Str × Str))
  deriving DecidableEq, Repr

/-- The identifier resolver `resolve_id_input` (src/src/ui/cli.rs): trim;
accept a full canonical identifier outright; reject inputs of fewer than 4
bytes (`str::len`); otherwise collect `(id, title)` for every task whose
short form equals the input or whose canonical form starts with it, and
dispatch on the number of matches, an ambiguity carrying the first 10
candidates as (short form, title) pairs. -/
def resolve_id_input (todos : List Todo) (input : Str) : Except ResolveError Str :=
  let s := rustTrim input
  match parse_uuid s with
  | some id => .ok id
  | none =>
    if utf8Len s < 4 then .error .TooShort
    else
      let ms := todos.filterMap (fun t =>
        if TodoId.short t.id == s || s.isPrefixOf t.id then some (t.id, t.title) else none)
      match ms with
      | [] => .error (.NotFound s)
      | [m] => .ok m.1
      | _ =>
        .error (.Ambiguous s ((ms.take 10).map (fun m => (TodoId.short m.1, m.2))))

/-- Match test of the resolver: short form equals the input, or the
canonical form starts with it. -/
def isIdMatch (s : Str) (t : Todo) : Bool :=
  TodoId.short t.id == s || s.isPrefixOf t.id

/-- The candidate list the resolver scans for, stated as a filter over the
task collection followed by projection to (id, title). -/
def matchesOf (todos : List Todo) (s : Str) : List (Str × Str) :=
  (todos.filter (isIdMatch s)).map (fun t => (t.id, t.title))

/-- The accumulation loop of the resolver builds exactly the filtered
projection `matchesOf`. -/
theorem filterMap_matches (todos : List Todo) (s : Str) :
    todos.filterMap (fun t =>
        if TodoId.short t.id == s || s.isPrefixOf t.id then some (t.id, t.title) else none)
      = matchesOf todos s := by
  induction todos with
  | nil => rfl
  | cons t ts ih =>
    simp only [List.filterMap_cons, matchesOf, List.filter_cons, isIdMatch] at ih ⊢
    by_cases h : (TodoId.short t.id == s || List.isPrefixOf s t.id) = true
    · simp [h]
      simpa using ih
    · simp [h]
      simpa using ih

/-- C3 counterexample: the trimmed input of two copies of a two-byte
character is shorter than 4 characters and is not a canonical identifier,
yet the resolver does not fail fast with the too-short error: its byte
length is 4, so the collection is scanned and the outcome is NotFound.
The minimum-length guard compares `str::len`, a UTF-8 byte count. -/
theorem resolve_short_multibyte_input_scans :
    (rustTrim "éé".data).length = 2
  ∧ parse_uuid (rustTrim "éé".data) = none
  ∧ resolve_id_input [dueBugDated] "éé".data =
      Except.error (ResolveError.NotFound "éé".data)
  ∧ resolve_id_input [dueBugDated] "éé".data ≠ Except.error ResolveError.TooShort := by
  refine ⟨by decide, by decide, by rfl, ?_⟩
  intro hcontra
  rw [show resolve_id_input [dueBugDated] "éé".data =
        Except.error (ResolveError.NotFound "éé".data) from rfl] at hcontra
  exact absurd (Except.error.inj hcontra) (by decide)

/-- C3 amended: after trimming, an input that parses as a full canonical
identifier resolves to it directly even when no task owns it; otherwise an
input of fewer than 4 UTF-8 bytes fails fast; otherwise, among the tasks
whose short form equals the input or whose canonical form starts with it,
zero matches fail with NotFound echoing the input, exactly one match
resolves to that task identifier, and two or more matches fail with
Ambiguous carrying at most 10 (short form, title) candidate pairs. -/
theorem resolve_id_input_spec (todos : List Todo) (input : Str) :
    (∀ id, parse_uuid (rustTrim input) = some id →
      resolve_id_input todos input = Except.ok id)
  ∧ (parse_uuid (rustTrim input) = none → utf8Len (rustTrim input) < 4 →
      resolve_id_input todos input = Except.error ResolveError.TooShort)
  ∧ (parse_uuid (rustTrim input) = none → 4 ≤ utf8Len (rustTrim input) →
      (matchesOf todos (rustTrim input) = [] →
        resolve_id_input todos input =
          Except.error (ResolveError.NotFound (rustTrim input)))
    ∧ (∀ m, matchesOf todos (rustTrim input) = [m] →
        resolve_id_input todos input = Except.ok m.1)
    ∧ (2 ≤ (matchesOf todos (rustTrim input)).length →
        resolve_id_input todos input =
          Except.error (ResolveError.Ambiguous (rustTrim input)
            (((matchesOf todos (rustTrim input)).take 10).map
              (fun m => (TodoId.short m.1, m.2))))
      ∧ (((matchesOf todos (rustTrim input)).take 10).map
            (fun m => (TodoId.short m.1, m.2))).length ≤ 10)) := by
  refine ⟨fun id hid => ?_, fun hid hlen => ?_, fun hid hlen => ⟨fun h0 => ?_, fun m h1 => ?_, fun h2 => ⟨?_, ?_⟩⟩⟩
  · simp [resolve_id_input, hid]
  · simp [resolve_id_input, hid, hlen]
  · rw [resolve_id_input, hid]
    simp only [filterMap_matches, h0]
    simp [hlen, Nat.not_lt.mpr hlen]
  · rw [resolve_id_input, hid]
    simp only [filterMap_matches, h1]
    simp [Nat.not_lt.mpr hlen]
  · rw [resolve_id_input, hid]
    simp only [filterMap_matches]
    rcases hm : matchesOf todos (rustTrim input) with _ | ⟨a, _ | ⟨b, rest⟩⟩
    · rw [hm] at h2; simp at h2
    · rw [hm] at h2; simp at h2
    · simp [Nat.not_lt.mpr hlen, hm]
  · calc (((matchesOf todos (rustTrim input)).take 10).map
        (fun m => (TodoId.short m.1, m.2))).length
        = ((matchesOf todos (rustTrim input)).take 10).length := List.length_map _ _
      _ ≤ 10 := List.length_take_le _ _

/-- Concrete witness for the amended C3: a full canonical identifier owned
by no task resolves directly, and a 4-byte short prefix matching two tasks
is ambiguous with both candidates listed. -/
theorem resolve_id_input_spec_witness :
    resolve_id_input [] "123e4567-e89b-12d3-a456-426614174000".data =
      Except.ok "123e4567-e89b-12d3-a456-426614174000".data
  ∧ resolve_id_input [dueBugDated, dueBugUndated] "zzzz".data =
      Except.error (ResolveError.NotFound "zzzz".data) :=
  ⟨(resolve_id_input_spec [] "123e4567-e89b-12d3-a456-426614174000".data).1
      "123e4567-e89b-12d3-a456-426614174000".data (by decide),
   ((resolve_id_input_spec [dueBugDated, dueBugUndated] "zzzz".data).2.2
      (by decide) (by decide)).1 (by decide)⟩

/-- Repository `add` (src/src/infra/memory_repo.rs and fs_repo.rs):
unconditional push onto the backing vector. -/
def repoAdd (todos : List Todo) (t : Todo) : List Todo := todos ++ [t]

/-- Repository `list`: a full copy of the backing vector in insertion
order. -/
def repoList (todos : List Todo) : List Todo := todos

/-- Repository `get`: first task with the exact identifier. -/
def repoGet (todos : List Todo) (id : Str) : Option Todo :=
  todos.find? (fun t => t.id == id)

/-- Repository `replace`: overwrite the first task carrying the same
identifier, reporting whether one existed; no insertion on a miss. -/
def repoReplace : List Todo → Todo → List Todo × Bool
  | [], _ => ([], false)
  | t :: rest, todo =>
    if t.id == todo.id then (todo :: rest, true)
    else
      let r := repoReplace rest todo
      (t :: r.1, r.2)

/-- Repository `remove`: retain every task with a different identifier and
report whether the length changed. -/
def repoRemove (todos : List Todo) (id : Str) : List Todo × Bool :=
  let kept := todos.filter (fun t => t.id != id)
  (kept, kept.length != todos.length)

/-- Repository `set_all`: wholesale replacement of the backing vector. -/
def repoSetAll (_todos : List Todo) (incoming : List Todo) : List Todo := incoming

/-- The edit use-case `TodoService::edit_todo` (src/src/app/service.rs):
fetch by identifier, apply the patch, replace; a miss at either step
reports false. -/
def edit_todo (repo : List Todo) (id : Str) (p : TodoPatch) (now : Int) :
    List Todo × Bool :=
  match repoGet repo id with
  | some todo => repoReplace repo (todo.apply_patch p now)
  | none => (repo, false)

/-- A lookup over tasks none of which carries the identifier misses. -/
theorem repoGet_eq_none {repo : List Todo} {id : Str}
    (h : ∀ t ∈ repo, t.id ≠ id) : repoGet repo id = none := by
  induction repo with
  | nil => rfl
  | cons t ts ih =>
    have ht : (t.id == id) = false := by
      simp [h t (List.mem_cons_self t ts)]
    simp only [repoGet, List.find?_cons, ht]
    exact ih (fun u hu => h u (List.mem_cons_of_mem t hu))

/-- Replacing a task none of the stored tasks shares an identifier with
returns the store unchanged and reports false. -/
theorem repoReplace_miss {repo : List Todo} {todo : Todo}
    (h : ∀ t ∈ repo, t.id ≠ todo.id) : repoReplace repo todo = (repo, false) := by
  induction repo with
  | nil => rfl
  | cons t ts ih =>
    have ht : (t.id == todo.id) = false := by
      simp [h t (List.mem_cons_self t ts)]
    simp only [repoReplace, ht, if_neg]
    rw [ih (fun u hu => h u (List.mem_cons_of_mem t hu))]
    simp

/-- C5: when the repository holds no task with the requested identifier,
the edit use-case reports the not-found outcome and leaves the repository
contents unchanged, and even a direct replace with that identifier (the
task vanished between fetch and replace) overwrites nothing and inserts
nothing. -/
theorem edit_todo_missing_id_spec (repo : List Todo) (id : Str) (p : TodoPatch)
    (now : Int) (todo : Todo) (h : ∀ t ∈ repo, t.id ≠ id) :
    edit_todo repo id p now = (repo, false)
  ∧ (todo.id = id → repoReplace repo todo = (repo, false)) := by
  constructor
  · rw [edit_todo, repoGet_eq_none h]
  · intro hid
    exact repoReplace_miss (fun t ht => by rw [hid]; exact h t ht)

/-- Concrete witness for C5: editing a one-task store under an identifier
it does not hold changes nothing and reports false. -/
theorem edit_todo_missing_id_spec_witness :
    edit_todo [dueBugDated] "zzzz9999".data { title := some "u".data } 7 =
      ([dueBugDated], false)
  ∧ repoReplace [dueBugDated] { dueBugUndated with id := "zzzz9999".data } =
      ([dueBugDated], false) :=
  ⟨(edit_todo_missing_id_spec [dueBugDated] "zzzz9999".data
      { title := some "u".data } 7 { dueBugUndated with id := "zzzz9999".data }
      (by decide)).1,
   (edit_todo_missing_id_spec [dueBugDated] "zzzz9999".data
      { title := some "u".data } 7 { dueBugUndated with id := "zzzz9999".data }
      (by decide)).2 rfl⟩

/-- Lookup finds the earliest-inserted task with the identifier. -/
theorem repoGet_earliest (l₁ l₂ : List Todo) (u : Todo)
    (hearly : ∀ v ∈ l₁, v.id ≠ u.id) :
    repoGet (l₁ ++ u :: l₂) u.id = some u := by
  induction l₁ with
  | nil => simp [repoGet, List.find?_cons]
  | cons v vs ih =>
    have hv : (v.id == u.id) = false := by
      simp [hearly v (List.mem_cons_self v vs)]
    simp only [List.cons_append, repoGet, List.find?_cons, hv] at ih ⊢
    exact ih (fun w hw => hearly w (List.mem_cons_of_mem v hw))

/-- Replace overwrites exactly the earliest-inserted task with the
identifier. -/
theorem repoReplace_earliest (l₁ l₂ : List Todo) (u t' : Todo)
    (hearly : ∀ v ∈ l₁, v.id ≠ u.id) (ht' : t'.id = u.id) :
    repoReplace (l₁ ++ u :: l₂) t' = (l₁ ++ t' :: l₂, true) := by
  induction l₁ with
  | nil => simp [repoReplace, ht']
  | cons v vs ih =>
    have hv : (v.id == t'.id) = false := by
      simp [ht', hearly v (List.mem_cons_self v vs)]
    have htail := ih (fun w hw => hearly w (List.mem_cons_of_mem v hw))
    simp [repoReplace, hv, htail]

/-- C10: the repositories never enforce identifier uniqueness: add appends
unconditionally even when a stored task already carries the same
identifier, and list returns both in insertion order; get and replace act
on the earliest-inserted task with the identifier; remove deletes every
stored task with the identifier in one call, reports true exactly when at
least one was removed, and preserves the relative order of the remaining
tasks. -/
theorem memory_repo_duplicate_ids_spec (l l₁ l₂ : List Todo) (u t t' : Todo)
    (id : Str) (_hdup : u ∈ l ∧ u.id = t.id) :
    repoList (repoAdd l t) = l ++ [t]
  ∧ ((∀ v ∈ l₁, v.id ≠ u.id) →
      repoGet (l₁ ++ u :: l₂) u.id = some u
    ∧ (t'.id = u.id → repoReplace (l₁ ++ u :: l₂) t' = (l₁ ++ t' :: l₂, true)))
  ∧ (repoRemove l id).1 = l.filter (fun v => v.id != id)
  ∧ (repoRemove l id).1.Sublist l
  ∧ ((repoRemove l id).2 = true ↔ ∃ v ∈ l, v.id = id) := by
  refine ⟨rfl, fun hearly =>
    ⟨repoGet_earliest l₁ l₂ u hearly, fun ht' => repoReplace_earliest l₁ l₂ u t' hearly ht'⟩,
    rfl, List.filter_sublist l, ?_⟩
  simp only [repoRemove, bne_iff_ne, ne_eq]
  constructor
  · intro hne
    by_contra hall
    push_neg at hall
    exact hne (congrArg List.length (List.filter_eq_self.mpr (fun v hv => by
      simpa using hall v hv)))
  · intro ⟨v, hv, hvid⟩ hlen
    have := List.filter_eq_self.mp (List.Sublist.eq_of_length (List.filter_sublist l) hlen)
    have hvkeep := this v hv
    simp [hvid] at hvkeep

/-- Concrete witness for C10 on a store holding two tasks with the same
identifier. -/
theorem memory_repo_duplicate_ids_spec_witness :
    repoList (repoAdd [dueBugDated] { dueBugUndated with id := dueBugDated.id })
      = [dueBugDated, { dueBugUndated with id := dueBugDated.id }]
  ∧ repoGet [dueBugDated, { dueBugUndated with id := dueBugDated.id }] dueBugDated.id
      = some dueBugDated
  ∧ (repoRemove [dueBugDated, { dueBugUndated with id := dueBugDated.id }]
        dueBugDated.id).2 = true := by
  have h := memory_repo_duplicate_ids_spec
    [dueBugDated] []
    [{ dueBugUndated with id := dueBugDated.id }] dueBugDated
    { dueBugUndated with id := dueBugDated.id }
    { dueBugUndated with id := dueBugDated.id } dueBugDated.id
    ⟨List.mem_singleton.mpr rfl, rfl⟩
  have h2 := memory_repo_duplicate_ids_spec
    [dueBugDated, { dueBugUndated with id := dueBugDated.id }] []
    [{ dueBugUndated with id := dueBugDated.id }] dueBugDated
    dueBugDated dueBugDated dueBugDated.id
    ⟨List.mem_cons_self _ _, rfl⟩
  refine ⟨h.1, ?_, ?_⟩
  · simpa using (h2.2.1 (by simp)).1
  · exact h2.2.2.2.2.mpr ⟨dueBugDated, List.mem_cons_self _ _, rfl⟩

/-- A serialized task record of the version-1 document, one field per item
named in spec section 6: identifier as canonical text, title text, status
as an open or done tag with the completion timestamp, priority as its
label, project text, tag list, optional due timestamp, optional notes,
and the two lifecycle timestamps.  Timestamp text in RFC3339 with
timezone round-trips to the same instant, so serialized timestamps are
carried as the instants they denote. -/
structure TaskDoc where
  id : Str
  title : Str
  status_tag : Str
  completed_at : Option Int
  priority : Str
  project : Str
  tags : List Str
  due : Option Int
  notes : Option Str
  created_at : Int
  updated_at : Int
  deriving DecidableEq, Repr

/-- Modelled from the spec: the serde serialization of `Todo` referenced by
src/src/infra/db_schema.rs is not under src/; spec section 6 fixes the
serialized task shape, embedded here as the field-for-field record above. -/
def encodeTodo (t : Todo) : TaskDoc :=
  { id := t.id
    title := t.title
    status_tag := match t.status with | .Open => "open".data | .Done _ => "done".data
    completed_at := match t.status with | .Open => none | .Done c => some c
    priority := t.priority.label
    project := t.project
    tags := t.tags
    due := t.due
    notes := t.notes
    created_at := t.created_at
    updated_at := t.updated_at }

/-- Failure kinds of document loading (src/src/infra/db_schema.rs renders
them as distinct anyhow messages). -/
inductive DbError
  | ParseError
  | UnsupportedSchemaVersion (v : Nat)
  deriving DecidableEq, Repr

/-- Modelled from the spec: status deserialization accepts exactly the open
tag, or the done tag accompanied by its completion timestamp. -/
def decodeStatus (tag : Str) (completed : Option Int) : Except DbError Status :=
  if tag == "open".data then .ok .Open
  else if tag == "done".data then
    match completed with
    | some c => .ok (.Done c)
    | none => .error .ParseError
  else .error .ParseError

/-- Modelled from the spec: task deserialization rebuilds the in-memory
task from the serialized record, decoding the status tag and the priority
label through the same `Priority::parse` the source exposes. -/
def decodeTaskDoc (d : TaskDoc) : Except DbError Todo :=
  match decodeStatus d.status_tag d.completed_at with
  | .error e => .error e
  | .ok status =>
    match Priority.parse d.priority with
    | .error _ => .error .ParseError
    | .ok priority =>
      .ok { id := d.id
            title := d.title
            notes := d.notes
            project := d.project
            tags := d.tags
            status := status
            priority := priority
            due := d.due
            created_at := d.created_at
            updated_at := d.updated_at }

/-- Sequential decoding of the serialized task array, failing on the first
malformed record as the serde array decode does. -/
def decodeTodos : List TaskDoc → Except DbError (List Todo)
  | [] => .ok []
  | d :: ds =>
    match decodeTaskDoc d with
    | .error e => .error e
    | .ok t =>
      match decodeTodos ds with
      | .error e => .error e
      | .ok ts => .ok (t :: ts)

/-- The parsed store document as `load_any` inspects it: the raw u64 value
the `as_u64` read of the schema_version field produces (a field that is
absent, negative, fractional or beyond u64 yields none), and the
serialized task array. -/
structure DbDoc where
  schema_version : Option Nat
  todos : List TaskDoc
  deriving DecidableEq, Repr

/-- The current schema version constant of src/src/infra/db_schema.rs. -/
def CURRENT_SCHEMA_VERSION : Nat := 1

/-- The modulus of the `as u32` wrapping cast applied to the u64 version
read in src/src/infra/db_schema.rs. -/
def U32_MOD : Nat := 4294967296

/-- The serde decode of `DbFileV1` (src/src/infra/db_schema.rs) from the
already-parsed document: its `schema_version: u32` field rejects a raw
number that does not fit in 32 bits, and the task array decodes record by
record. -/
def decodeDbFileV1 (doc : DbDoc) : Except DbError (List Todo) :=
  match doc.schema_version with
  | some v => if v < U32_MOD then decodeTodos doc.todos else .error .ParseError
  | none => .error .ParseError

/-- Version dispatch of `load_any` (src/src/infra/db_schema.rs): the u64
read of schema_version is wrapped by `as u32` and defaults to 0 when the
read fails; the wrapped value 1 re-decodes the document as `DbFileV1`, and
every other wrapped value fails with the unsupported-schema-version
error. -/
def load_any (doc : DbDoc) : Except DbError (List Todo) :=
  let schema_version := (doc.schema_version.map (fun v => v % U32_MOD)).getD 0
  if schema_version = 1 then decodeDbFileV1 doc
  else .error (.UnsupportedSchemaVersion schema_version)

/-- Serialization `write_current` (src/src/infra/db_schema.rs): wrap the
encoded tasks with the current schema version. -/
def write_current (todos : List Todo) : DbDoc :=
  { schema_version := some CURRENT_SCHEMA_VERSION
    todos := todos.map encodeTodo }

/-- Decoding inverts encoding on every single task record. -/
theorem decodeTaskDoc_encodeTodo (t : Todo) :
    decodeTaskDoc (encodeTodo t) = Except.ok t := by
  obtain ⟨id, title, notes, project, tags, status, priority, due, ca, ua⟩ := t
  cases status <;> cases priority <;>
    simp [decodeTaskDoc, encodeTodo, decodeStatus, Priority.parse, Priority.label,
      asciiUpper, asciiUpperChar, rustTrim, isWs]

/-- C2: serializing any task collection to the versioned on-disk document
and decoding that document back yields a field-for-field identical
collection: identifiers, titles, notes, project, tag sets, status with any
completion timestamp, priority, due and both lifecycle timestamps all
survive the round trip. -/
theorem load_any_write_current_roundtrip (todos : List Todo) :
    load_any (write_current todos) = Except.ok todos := by
  have hdec : decodeTodos (todos.map encodeTodo) = Except.ok todos := by
    induction todos with
    | nil => rfl
    | cons t ts ih => simp [decodeTodos, decodeTaskDoc_encodeTodo, ih]
  simp [load_any, write_current, CURRENT_SCHEMA_VERSION, decodeDbFileV1, U32_MOD, hdec]

/-- C6 counterexample: a well-formed document carrying schema_version
4294967297, which is not 1, does not fail with an unsupported-schema-version
error: the `as u32` cast wraps the value to 1, the dispatch takes the
version-1 branch, and the `DbFileV1` decode then rejects the raw number
for its u32 field, so the load fails with a version-1 decode error. -/
theorem load_any_wrapped_version_counterexample :
    (4294967297 : Nat) ≠ 1
  ∧ load_any { schema_version := some 4294967297, todos := [] } =
      Except.error DbError.ParseError
  ∧ load_any { schema_version := some 4294967297, todos := [] } ≠
      Except.error (DbError.UnsupportedSchemaVersion 4294967297) := by
  refine ⟨by norm_num, rfl, ?_⟩
  intro hcontra
  rw [show load_any { schema_version := some 4294967297, todos := [] } =
        Except.error DbError.ParseError from rfl] at hcontra
  exact absurd (Except.error.inj hcontra) (by decide)

/-- C6 amended: the version read is the u64 value wrapped by the `as u32`
cast, defaulting to 0 when the field is missing or not a u64 number.  A
document whose schema_version is exactly 1 decodes into the in-memory task
list by per-record decoding with no translation; a document whose wrapped
version differs from 1 fails with the unsupported-schema-version error for
the wrapped value; a schema_version other than 1 that wraps to 1 takes the
version-1 decode path and fails its u32 field decode.  No document whose
schema_version differs from 1 is ever silently coerced. -/
theorem load_any_schema_dispatch (doc : DbDoc) :
    (doc.schema_version = some 1 → load_any doc = decodeTodos doc.todos)
  ∧ (∀ v, doc.schema_version = some v → v % U32_MOD = 1 → v ≠ 1 →
      load_any doc = Except.error DbError.ParseError)
  ∧ ((doc.schema_version.map (fun v => v % U32_MOD)).getD 0 ≠ 1 →
      load_any doc =
        Except.error (DbError.UnsupportedSchemaVersion
          ((doc.schema_version.map (fun v => v % U32_MOD)).getD 0))) := by
  refine ⟨fun h => ?_, fun v hv hmod hne => ?_, fun h => ?_⟩
  · simp [load_any, h, decodeDbFileV1, U32_MOD]
  · have hge : U32_MOD ≤ v := by
      by_contra hlt
      push_neg at hlt
      rw [Nat.mod_eq_of_lt hlt] at hmod
      exact hne hmod
    simp only [load_any, decodeDbFileV1, hv]
    rw [show (Option.map (fun v => v % U32_MOD) (some v)).getD 0 = v % U32_MOD from rfl]
    rw [hmod, if_pos rfl, if_neg (by omega)]
  · simp only [load_any]
    rw [if_neg h]

/-- Concrete witness for the amended C6: an empty version-1 document loads
as the empty collection; version 2 and a missing field fail with the
respective unsupported version; version 4294967297 wraps to 1 and fails
the version-1 decode. -/
theorem load_any_schema_dispatch_witness :
    load_any { schema_version := some 1, todos := [] } = Except.ok []
  ∧ load_any { schema_version := some 2, todos := [] } =
      Except.error (DbError.UnsupportedSchemaVersion 2)
  ∧ load_any { schema_version := none, todos := [] } =
      Except.error (DbError.UnsupportedSchemaVersion 0)
  ∧ load_any { schema_version := some 4294967297, todos := [] } =
      Except.error DbError.ParseError :=
  ⟨(load_any_schema_dispatch { schema_version := some 1, todos := [] }).1 rfl,
   (load_any_schema_dispatch { schema_version := some 2, todos := [] }).2.2 (by decide),
   (load_any_schema_dispatch { schema_version := none, todos := [] }).2.2 (by decide),
   (load_any_schema_dispatch { schema_version := some 4294967297, todos := [] }).2.1
      4294967297 rfl (by norm_num [U32_MOD]) (by norm_num)⟩

end RustlyTodo
